import Mathlib

/-!
Shallow embedding of the voxshift audio core: the WAV container codec
(`src/audio/wav.ts`), the linear resampler and the overlap-add timeline
compositor (`composeDubbedTimeline`).  Byte streams are `List Nat` (each
element a byte value), PCM samples are `Int`, and JavaScript numbers used
for times and interpolation are modelled as exact rationals.  JavaScript
`Math.round` is round-half-up (`⌊x + 1/2⌋`); `Int16Array`/`Int32Array`
stores wrap modulo 2^16 / 2^32; Node buffer reads past the end of the
stream raise a range error, modelled by `Option`/`WavError.rangeError`.
-/

/-- JavaScript `Math.round`: round half toward positive infinity. -/
def roundHalfUp (q : ℚ) : Int := ⌊q + 1 / 2⌋

/-- Wrap an integer into the signed 16-bit range, as an `Int16Array` store does. -/
def toInt16Wrap (v : Int) : Int := (v + 32768) % 65536 - 32768

/-- Wrap an integer into the signed 32-bit range, as an `Int32Array` store does. -/
def toInt32Wrap (v : Int) : Int := (v + 2147483648) % 4294967296 - 2147483648

/-- `Math.max(-32768, Math.min(32767, v))`: clamp into the int16 domain. -/
def clampInt16 (v : Int) : Int := max (-32768) (min 32767 v)

/-- Interpret a 16-bit unsigned value as a signed 16-bit sample. -/
def toInt16 (v : Nat) : Int := if v < 32768 then (v : Int) else (v : Int) - 65536

/-- Positional byte lookup (`none` past the end of the stream). -/
def byteAt : List Nat → Nat → Option Nat
  | [], _ => none
  | b :: _, 0 => some b
  | _ :: rest, i + 1 => byteAt rest i

/-- Node `buffer.readUInt16LE`: `none` models the out-of-range throw. -/
def readU16LE (d : List Nat) (i : Nat) : Option Nat :=
  match byteAt d i, byteAt d (i + 1) with
  | some b0, some b1 => some (b0 + 256 * b1)
  | _, _ => none

/-- Node `buffer.readUInt32LE`: `none` models the out-of-range throw. -/
def readU32LE (d : List Nat) (i : Nat) : Option Nat :=
  match byteAt d i, byteAt d (i + 1), byteAt d (i + 2), byteAt d (i + 3) with
  | some b0, some b1, some b2, some b3 =>
      some (b0 + 256 * b1 + 65536 * b2 + 16777216 * b3)
  | _, _, _, _ => none

/-- Little-endian bytes of a 16-bit value, as `buffer.writeUInt16LE` emits. -/
def u16le (v : Nat) : List Nat := [v % 256, v / 256 % 256]

/-- Little-endian bytes of a 32-bit value, as `buffer.writeUInt32LE` emits. -/
def u32le (v : Nat) : List Nat :=
  [v % 256, v / 256 % 256, v / 65536 % 256, v / 16777216 % 256]

/-- Four bytes of the stream decoded with Node's `"ascii"` codec (which keeps
only the low 7 bits of each byte), used for chunk-id comparisons. -/
def ascii4 (d : List Nat) (off : Nat) : List Nat :=
  ((d.drop off).take 4).map (fun b => b % 128)

/-- `buffer.writeInt16LE`: the sample's two's-complement low 16 bits, LE. -/
def int16LEBytes (v : Int) : List Nat :=
  [(v % 65536).toNat % 256, (v % 65536).toNat / 256]

/-- Decode consecutive little-endian byte pairs as signed 16-bit samples,
as viewing the PCM bytes through an `Int16Array` does (a trailing odd byte
is dropped). -/
def decodeInt16Pairs : List Nat → List Int
  | b0 :: b1 :: rest => toInt16 (b0 + 256 * b1) :: decodeInt16Pairs rest
  | _ => []

/-- Mono PCM audio: a sample rate and signed 16-bit samples. -/
structure AudioBuffer where
  sampleRate : Nat
  samples : List Int
deriving DecidableEq

/-- `pcm16ToWavBuffer` from `src/audio/wav.ts`: the canonical 44-byte RIFF
header followed by the raw PCM bytes. -/
def pcm16ToWavBuffer (pcmData : List Nat) (sampleRate : Nat) (channels : Nat) : List Nat :=
  [82, 73, 70, 70] ++ u32le (36 + pcmData.length) ++ [87, 65, 86, 69] ++
  [102, 109, 116, 32] ++ u32le 16 ++ u16le 1 ++ u16le channels ++
  u32le sampleRate ++ u32le (sampleRate * channels * 2) ++ u16le (channels * 2) ++
  u16le 16 ++ [100, 97, 116, 97] ++ u32le pcmData.length ++ pcmData

/-- `writeWavPcm16Mono` from `src/audio/wav.ts`, minus the file write: the
samples encoded little-endian and framed by `pcm16ToWavBuffer` with one
channel. -/
def writeWavPcm16MonoBytes (sampleRate : Nat) (samples : List Int) : List Nat :=
  pcm16ToWavBuffer ((samples.map int16LEBytes).flatten) sampleRate 1

/-- Failure kinds of the WAV reader.  `invalidContainer` covers the
"too small", "unsupported header" and "data chunk not found" throws,
`unsupportedFormat` the "only 16-bit PCM" throw, and `rangeError` a Node
buffer read or typed-array construction that throws a `RangeError`. -/
inductive WavError
  | invalidContainer
  | unsupportedFormat
  | rangeError
deriving DecidableEq

instance {e a : Type} [DecidableEq e] [DecidableEq a] : DecidableEq (Except e a) := fun x y =>
  match x, y with
  | .ok u, .ok v =>
    if h : u = v then isTrue (by rw [h]) else isFalse (by intro hc; cases hc; exact h rfl)
  | .error u, .error v =>
    if h : u = v then isTrue (by rw [h]) else isFalse (by intro hc; cases hc; exact h rfl)
  | .ok _, .error _ => isFalse (by intro hc; cases hc)
  | .error _, .ok _ => isFalse (by intro hc; cases hc)

/-- Result of `readWavPcm16Mono`. -/
structure WavReadResult where
  sampleRate : Nat
  channels : Nat
  bitsPerSample : Nat
  samples : List Int
deriving DecidableEq

/-- The chunk-scanning loop of `readWavPcm16Mono`: walks `(id, size)` chunk
headers from `offset`, updating the fmt fields when a `"fmt "` chunk is seen
and stopping at the first `"data"` chunk.  Returns the data chunk's
`(offset, size)` (or `none`) together with the final channel count, sample
rate and bits-per-sample. -/
def scanChunks (d : List Nat) (offset channels sampleRate bits : Nat) :
    Except WavError (Option (Nat × Nat) × Nat × Nat × Nat) :=
  if h : offset + 8 ≤ d.length then
    match readU32LE d (offset + 4) with
    | none => .error .rangeError
    | some chunkSize =>
      if ascii4 d offset = [102, 109, 116, 32] then
        match readU16LE d (offset + 8 + 2), readU32LE d (offset + 8 + 4),
            readU16LE d (offset + 8 + 14) with
        | some ch, some sr, some bps => scanChunks d (offset + 8 + chunkSize) ch sr bps
        | _, _, _ => .error .rangeError
      else if ascii4 d offset = [100, 97, 116, 97] then
        .ok (some (offset + 8, chunkSize), channels, sampleRate, bits)
      else
        scanChunks d (offset + 8 + chunkSize) channels sampleRate bits
  else
    .ok (none, channels, sampleRate, bits)
termination_by d.length - offset
decreasing_by all_goals omega

/-- The multi-channel branch of `readWavPcm16Mono`: for each full frame,
sum the channel samples, divide by the channel count, round half-up and
clamp into the int16 domain. -/
def downmixChannels (channels : Nat) (source : List Int) : List Int :=
  (List.range (source.length / channels)).map (fun frame =>
    clampInt16 (roundHalfUp
      ((((List.range channels).foldl
          (fun sum ch => sum + source.getD (frame * channels + ch) 0) 0 : Int) : ℚ) /
        (channels : ℚ))))

/-- `readWavPcm16Mono` from `src/audio/wav.ts`, minus the file read: parse a
WAV byte stream into mono 16-bit PCM, defaulting the fmt fields to one
channel, 24000 Hz, 16 bits when no `"fmt "` chunk precedes the data. -/
def readWavPcm16Mono (d : List Nat) : Except WavError WavReadResult :=
  if d.length < 44 then .error .invalidContainer
  else if ¬(ascii4 d 0 = [82, 73, 70, 70] ∧ ascii4 d 8 = [87, 65, 86, 69]) then
    .error .invalidContainer
  else
    match scanChunks d 12 1 24000 16 with
    | .error e => .error e
    | .ok (none, _, _, _) => .error .invalidContainer
    | .ok (some (pcmOffset, pcmSize), channels, sampleRate, bits) =>
      if bits ≠ 16 then .error .unsupportedFormat
      else
        let pcm := (d.drop pcmOffset).take pcmSize
        if channels = 1 then
          .ok ⟨sampleRate, channels, bits, decodeInt16Pairs pcm⟩
        else if channels = 0 ∧ pcm ≠ [] then .error .rangeError
        else
          .ok ⟨sampleRate, 1, bits, downmixChannels channels (decodeInt16Pairs pcm)⟩

/-- The interpolated sample of `resampleLinear` at output index `i`, before
the `Int16Array` store. -/
def interpValue (samples : List Int) (ratio : ℚ) (i : Nat) : Int :=
  let p : ℚ := (i : ℚ) / ratio
  let left : Int := ⌊p⌋
  let right : Int := min (left + 1) ((samples.length : Int) - 1)
  let alpha : ℚ := p - (left : ℚ)
  roundHalfUp ((samples.getD left.toNat 0 : ℚ) * (1 - alpha) +
    (samples.getD right.toNat 0 : ℚ) * alpha)

/-- `Math.max(1, Math.round(samples.length * ratio))`: the resampler's
output length. -/
def resampleTargetLength (sourceLength : Nat) (ratio : ℚ) : Nat :=
  (max 1 (roundHalfUp ((sourceLength : ℚ) * ratio))).toNat

/-- `resampleLinear` from the compositor module: identity at equal rates,
otherwise linear interpolation at ratio `targetRate / sourceRate`. -/
def resampleLinear (samples : List Int) (sourceRate targetRate : Nat) : List Int :=
  if sourceRate = targetRate then samples
  else
    (List.range (resampleTargetLength samples.length ((targetRate : ℚ) / (sourceRate : ℚ)))).map
      (fun i => toInt16Wrap (interpValue samples ((targetRate : ℚ) / (sourceRate : ℚ)) i))

/-- One synthesized segment handed to the compositor: its time window, the
`durationSec` metadata carried by `SynthesizedSegment`, and the audio read
from its WAV file. -/
structure Segment where
  startSec : ℚ
  endSec : ℚ
  durationSec : ℚ
  audio : AudioBuffer
deriving DecidableEq

/-- JavaScript `Math.max(...list)` over a nonempty argument list (callers
never pass the empty list; `0` is a dummy value for it). -/
def jsMaxList : List ℚ → ℚ
  | [] => 0
  | x :: xs => xs.foldl max x

/-- `inferredDuration` of `composeDubbedTimeline`: the max over all segment
end times and all `startSec + durationSec`. -/
def inferredDurationSec (segments : List Segment) : ℚ :=
  jsMaxList (segments.map (fun s => s.endSec) ++
    segments.map (fun s => s.startSec + s.durationSec))

/-- `Math.max(1, Math.ceil(durationSec * sampleRate))`: the accumulator
length of one composition call. -/
def composeTotalSamples (segments : List Segment) (sampleRate : Nat)
    (mediaDurationSec : ℚ) : Nat :=
  (max 1 ⌈max mediaDurationSec (inferredDurationSec segments) * (sampleRate : ℚ)⌉).toNat

/-- `Math.max(0, Math.round(segment.startSec * sampleRate))`. -/
def composeStartIndex (seg : Segment) (sampleRate : Nat) : Nat :=
  (max 0 (roundHalfUp (seg.startSec * (sampleRate : ℚ)))).toNat

/-- `Math.max(1, Math.round((endSec - startSec) * sampleRate))`. -/
def composeWindowSamples (seg : Segment) (sampleRate : Nat) : Nat :=
  (max 1 (roundHalfUp ((seg.endSec - seg.startSec) * (sampleRate : ℚ)))).toNat

/-- The number of resampled samples of a segment actually added to the
accumulator: `Math.min(source.length, targetWindowSamples, maxWritable)`
(`maxWritable` is `Math.max(0, totalSamples - startIndex)`, which is
truncated subtraction on `Nat`). -/
def composeWritableCount (seg : Segment) (sampleRate totalSamples : Nat) : Nat :=
  min (resampleLinear seg.audio.samples seg.audio.sampleRate sampleRate).length
    (min (composeWindowSamples seg sampleRate)
      (totalSamples - composeStartIndex seg sampleRate))

/-- The inner accumulation loop for one segment: add its writable resampled
samples into the shared `Int32Array` accumulator at its start index. -/
def accumulateSegment (sampleRate totalSamples : Nat) (acc : Nat → Int)
    (seg : Segment) : Nat → Int :=
  fun i =>
    if composeStartIndex seg sampleRate ≤ i ∧
        i < composeStartIndex seg sampleRate + composeWritableCount seg sampleRate totalSamples then
      toInt32Wrap (acc i +
        (resampleLinear seg.audio.samples seg.audio.sampleRate sampleRate).getD
          (i - composeStartIndex seg sampleRate) 0)
    else acc i

/-- The single failure kind of `composeDubbedTimeline`. -/
inductive ComposeError
  | emptyInput
deriving DecidableEq

/-- `composeDubbedTimeline`, minus the file reads and the final file write:
reject an empty segment list, size the zeroed accumulator from the inferred
duration, add every segment's writable resampled samples at its start index,
and clamp the accumulator into the final int16 buffer. -/
def composeDubbedTimeline (segments : List Segment) (sampleRate : Nat)
    (mediaDurationSec : ℚ) : Except ComposeError AudioBuffer :=
  if segments.isEmpty then .error .emptyInput
  else
    .ok ⟨sampleRate,
      (List.range (composeTotalSamples segments sampleRate mediaDurationSec)).map
        (fun i => clampInt16
          (segments.foldl
            (accumulateSegment sampleRate (composeTotalSamples segments sampleRate mediaDurationSec))
            (fun _ => 0) i))⟩

/-! ### Arithmetic helpers -/

lemma roundHalfUp_eq (q : ℚ) (z : ℤ) (h1 : (z : ℚ) ≤ q + 1 / 2) (h2 : q + 1 / 2 < z + 1) :
    roundHalfUp q = z := by
  rw [roundHalfUp]
  exact Int.floor_eq_iff.mpr ⟨h1, h2⟩

lemma toInt32Wrap_eq_self (v : Int) (h1 : -2147483648 ≤ v) (h2 : v < 2147483648) :
    toInt32Wrap v = v := by
  rw [toInt32Wrap]; omega

lemma toInt16Wrap_eq_self (v : Int) (h1 : -32768 ≤ v) (h2 : v ≤ 32767) :
    toInt16Wrap v = v := by
  rw [toInt16Wrap]; omega

lemma clampInt16_eq_self (v : Int) (h1 : -32768 ≤ v) (h2 : v ≤ 32767) :
    clampInt16 v = v := by
  rw [clampInt16]; omega

lemma toInt32Wrap_add_left (a b : Int) :
    toInt32Wrap (toInt32Wrap a + b) = toInt32Wrap (a + b) := by
  rw [toInt32Wrap, toInt32Wrap, toInt32Wrap]; omega

/-! ### C8: compose fails with EmptyInput exactly on the empty segment list -/

/-- C8: `composeDubbedTimeline` fails with `EmptyInput` if and only if the
segment list is empty; the emptiness test is the first step of the function,
before the accumulator is built. -/
theorem compose_error_iff_empty (segments : List Segment) (sampleRate : Nat)
    (mediaDurationSec : ℚ) :
    composeDubbedTimeline segments sampleRate mediaDurationSec =
      .error .emptyInput ↔ segments = [] := by
  cases segments <;> simp [composeDubbedTimeline]

lemma intCeil_eq (q : ℚ) (z : ℤ) (h1 : (z : ℚ) - 1 < q) (h2 : q ≤ z) : ⌈q⌉ = z :=
  Int.ceil_eq_iff.mpr ⟨h1, h2⟩

/-! ### C5: identically placed segments sum additively and are clamped once -/

/-- C5: two identical segments placed at offset zero, each contributing the
sample value `V` at every index of their shared window, compose to
`clamp(2V)` at every output index: overlapping contributions are added into
the accumulator and clamped once at the end, never overwritten. -/
theorem compose_overlap_sum (V : Int) (hV1 : -32768 ≤ V) (hV2 : V ≤ 32767) :
    composeDubbedTimeline
      [⟨0, 1, 1, ⟨10, List.replicate 10 V⟩⟩, ⟨0, 1, 1, ⟨10, List.replicate 10 V⟩⟩] 10 0 =
    .ok ⟨10, List.replicate 10 (clampInt16 (2 * V))⟩ := by
  have hinf : inferredDurationSec
      [⟨0, 1, 1, ⟨10, List.replicate 10 V⟩⟩, ⟨0, 1, 1, ⟨10, List.replicate 10 V⟩⟩] = 1 := by
    norm_num [inferredDurationSec, jsMaxList]
  have hts : composeTotalSamples
      [⟨0, 1, 1, ⟨10, List.replicate 10 V⟩⟩, ⟨0, 1, 1, ⟨10, List.replicate 10 V⟩⟩] 10 0 = 10 := by
    rw [composeTotalSamples, hinf]
    rw [show max (0 : ℚ) 1 = 1 by norm_num]
    rw [intCeil_eq (1 * ((10 : ℕ) : ℚ)) 10 (by norm_num) (by norm_num)]
    rfl
  have hseg : ∀ i : Nat, i < 10 →
      accumulateSegment 10 10
        (accumulateSegment 10 10 (fun _ => 0) ⟨0, 1, 1, ⟨10, List.replicate 10 V⟩⟩)
        ⟨0, 1, 1, ⟨10, List.replicate 10 V⟩⟩ i = 2 * V := by
    intro i hi
    have hsi : composeStartIndex ⟨0, 1, 1, ⟨10, List.replicate 10 V⟩⟩ 10 = 0 := by
      rw [composeStartIndex, roundHalfUp_eq (0 * ((10 : ℕ) : ℚ)) 0 (by norm_num) (by norm_num)]
      rfl
    have hre : resampleLinear (List.replicate 10 V) 10 10 = List.replicate 10 V := by
      rw [resampleLinear, if_pos rfl]
    have hwc : composeWritableCount ⟨0, 1, 1, ⟨10, List.replicate 10 V⟩⟩ 10 10 = 10 := by
      rw [composeWritableCount, hsi]
      rw [show (⟨0, 1, 1, ⟨10, List.replicate 10 V⟩⟩ : Segment).audio = ⟨10, List.replicate 10 V⟩ from rfl]
      rw [composeWindowSamples]
      rw [roundHalfUp_eq ((1 - 0) * ((10 : ℕ) : ℚ)) 10 (by norm_num) (by norm_num)]
      rw [hre]
      simp
    have hgd : (List.replicate 10 V).getD (i - 0) 0 = V := by
      rw [List.getD_eq_getElem _ _ (by simpa using hi), List.getElem_replicate]
    rw [accumulateSegment, accumulateSegment]
    simp only [hsi, hwc, hre, hgd]
    rw [if_pos ⟨Nat.zero_le i, by omega⟩, if_pos ⟨Nat.zero_le i, by omega⟩]
    rw [toInt32Wrap_eq_self (0 + V) (by omega) (by omega)]
    rw [toInt32Wrap_eq_self (0 + V + V) (by omega) (by omega)]
    ring
  rw [composeDubbedTimeline]
  rw [if_neg (by simp)]
  rw [hts]
  refine congrArg Except.ok (congrArg _ ?_)
  refine List.ext_getElem (by simp) ?_
  intro i h1 h2
  simp only [List.getElem_map, List.getElem_range, List.getElem_replicate]
  have hi : i < 10 := by simpa using h1
  rw [List.foldl, List.foldl, List.foldl, hseg i hi]

/-- Witness for C5 at `V = 20000`, where the sum `40000` really clips. -/
theorem compose_overlap_sum_witness :
    (-32768 ≤ (20000 : Int) ∧ (20000 : Int) ≤ 32767) ∧
    clampInt16 (2 * 20000) = 32767 ∧
    composeDubbedTimeline
      [⟨0, 1, 1, ⟨10, List.replicate 10 20000⟩⟩, ⟨0, 1, 1, ⟨10, List.replicate 10 20000⟩⟩] 10 0 =
    .ok ⟨10, List.replicate 10 (clampInt16 (2 * 20000))⟩ :=
  ⟨⟨by norm_num, by norm_num⟩, by decide,
    compose_overlap_sum 20000 (by norm_num) (by norm_num)⟩

/-! ### C2: one segment at second 1..2 inside a 3-second canvas -/

/-- C2: composing the single segment `{startSec = 1, endSec = 2}` whose audio
is one second (24000 samples) at 24000 Hz, with target rate 24000 and
minimum duration 3 s, yields exactly 72000 samples: one second of silence,
the (identity-resampled) tone, and one second of silence. -/
theorem compose_single_segment (tone : List Int) (hlen : tone.length = 24000)
    (hdom : ∀ v ∈ tone, -32768 ≤ v ∧ v ≤ 32767) :
    composeDubbedTimeline [⟨1, 2, 1, ⟨24000, tone⟩⟩] 24000 3 =
      .ok ⟨24000, List.replicate 24000 0 ++ tone ++ List.replicate 24000 0⟩ := by
  have hinf : inferredDurationSec [⟨1, 2, 1, ⟨24000, tone⟩⟩] = 2 := by
    norm_num [inferredDurationSec, jsMaxList]
  have hts : composeTotalSamples [⟨1, 2, 1, ⟨24000, tone⟩⟩] 24000 3 = 72000 := by
    rw [composeTotalSamples, hinf]
    rw [show max (3 : ℚ) 2 = 3 by norm_num]
    rw [intCeil_eq (3 * ((24000 : ℕ) : ℚ)) 72000 (by norm_num) (by norm_num)]
    rfl
  have hsi : composeStartIndex ⟨1, 2, 1, ⟨24000, tone⟩⟩ 24000 = 24000 := by
    rw [composeStartIndex, roundHalfUp_eq (1 * ((24000 : ℕ) : ℚ)) 24000 (by norm_num) (by norm_num)]
    rfl
  have hre : resampleLinear tone 24000 24000 = tone := by
    rw [resampleLinear, if_pos rfl]
  have hwc : composeWritableCount ⟨1, 2, 1, ⟨24000, tone⟩⟩ 24000 72000 = 24000 := by
    rw [composeWritableCount]
    rw [show (⟨1, 2, 1, ⟨24000, tone⟩⟩ : Segment).audio = ⟨24000, tone⟩ from rfl]
    rw [hsi, composeWindowSamples]
    rw [roundHalfUp_eq ((2 - 1) * ((24000 : ℕ) : ℚ)) 24000 (by norm_num) (by norm_num)]
    show min (resampleLinear tone 24000 24000).length _ = 24000
    rw [hre, hlen]
    rfl
  rw [composeDubbedTimeline, if_neg (by simp), hts]
  refine congrArg Except.ok (congrArg _ ?_)
  refine List.ext_getElem (by
    simp only [List.length_map, List.length_range, List.length_append,
      List.length_replicate, hlen]) ?_
  intro i h1 h2
  simp only [List.getElem_map, List.getElem_range]
  rw [List.foldl, List.foldl]
  simp only [accumulateSegment, hsi, hwc, hre]
  have hi : i < 72000 := by
    rw [List.length_map, List.length_range] at h1
    exact h1
  have hlenA : (List.replicate 24000 (0 : Int)).length = 24000 := List.length_replicate 24000 0
  have hlenAB : (List.replicate 24000 (0 : Int) ++ tone).length = 48000 := by
    rw [List.length_append, hlenA, hlen]
  by_cases hcase : 24000 ≤ i ∧ i < 24000 + 24000
  · rw [if_pos hcase]
    have hidx : i - 24000 < tone.length := by omega
    have hmem : tone[i - 24000] ∈ tone := List.getElem_mem hidx
    have hb := hdom _ hmem
    rw [List.getD_eq_getElem _ _ hidx]
    rw [show (0 : Int) + tone[i - 24000] = tone[i - 24000] by ring]
    rw [toInt32Wrap_eq_self _ (by omega) (by omega)]
    rw [clampInt16_eq_self _ (by omega) (by omega)]
    rw [List.getElem_append_left (by rw [hlenAB]; omega)]
    rw [List.getElem_append_right (by rw [hlenA]; omega)]
    simp only [hlenA]
  · rw [if_neg hcase]
    rcases Nat.lt_or_ge i 24000 with hlo | hhi
    · rw [List.getElem_append_left (by rw [hlenAB]; omega)]
      rw [List.getElem_append_left (by rw [hlenA]; omega)]
      rw [List.getElem_replicate]
      exact clampInt16_eq_self 0 (by norm_num) (by norm_num)
    · rw [List.getElem_append_right (by rw [hlenAB]; omega)]
      rw [List.getElem_replicate]
      exact clampInt16_eq_self 0 (by norm_num) (by norm_num)

/-- Witness for C2 with a constant 1000-valued one-second tone. -/
theorem compose_single_segment_witness :
    ((List.replicate 24000 (1000 : Int)).length = 24000 ∧
      ∀ v ∈ List.replicate 24000 (1000 : Int), -32768 ≤ v ∧ v ≤ 32767) ∧
    composeDubbedTimeline [⟨1, 2, 1, ⟨24000, List.replicate 24000 1000⟩⟩] 24000 3 =
      .ok ⟨24000, List.replicate 24000 0 ++ List.replicate 24000 1000 ++
        List.replicate 24000 0⟩ :=
  ⟨⟨List.length_replicate 24000 1000,
    fun v hv => by rw [List.eq_of_mem_replicate hv]; norm_num⟩,
    compose_single_segment (List.replicate 24000 1000) (List.length_replicate 24000 1000)
      (fun v hv => by rw [List.eq_of_mem_replicate hv]; norm_num)⟩

/-! ### C10: a negative start time is clamped to output index 0 -/

lemma one_le_max_one_toNat (z : Int) : 1 ≤ (max 1 z).toNat := by
  rcases le_or_lt z 1 with h | h
  · rw [max_eq_left h]; rfl
  · rw [max_eq_right h.le]; omega

lemma resampleLinear_ne_nil (samples : List Int) (sourceRate targetRate : Nat)
    (hne : samples ≠ []) : 1 ≤ (resampleLinear samples sourceRate targetRate).length := by
  rw [resampleLinear]
  split
  · exact List.length_pos.mpr hne
  · rw [List.length_map, List.length_range, resampleTargetLength]
    exact one_le_max_one_toNat _

/-- C10: a segment with a negative `startSec` does not make `compose` fail:
its start index is clamped to 0 by `Math.max(0, ...)`, so its first writable
resampled sample lands at output index 0 of the composed buffer. -/
theorem compose_negative_start (seg : Segment) (sampleRate : Nat) (mediaDurationSec : ℚ)
    (hneg : seg.startSec < 0) (hne : seg.audio.samples ≠ []) :
    composeStartIndex seg sampleRate = 0 ∧
    ∃ b, composeDubbedTimeline [seg] sampleRate mediaDurationSec = .ok b ∧
      b.samples.getD 0 0 =
        clampInt16 (toInt32Wrap
          ((resampleLinear seg.audio.samples seg.audio.sampleRate sampleRate).getD 0 0)) := by
  have hmul : seg.startSec * (sampleRate : ℚ) ≤ 0 :=
    mul_nonpos_iff.mpr (Or.inr ⟨hneg.le, by positivity⟩)
  have hround : roundHalfUp (seg.startSec * (sampleRate : ℚ)) ≤ 0 := by
    have h1 : seg.startSec * (sampleRate : ℚ) + 1 / 2 ≤ 0 + 1 / 2 := by linarith
    have h2 : roundHalfUp (seg.startSec * (sampleRate : ℚ)) ≤ roundHalfUp (0 : ℚ) := by
      rw [roundHalfUp, roundHalfUp]
      exact Int.floor_le_floor h1
    have h3 : roundHalfUp (0 : ℚ) = 0 :=
      roundHalfUp_eq 0 0 (by norm_num) (by norm_num)
    omega
  have hsi : composeStartIndex seg sampleRate = 0 := by
    rw [composeStartIndex, max_eq_left hround]
    rfl
  refine ⟨hsi, ?_⟩
  set ts := composeTotalSamples [seg] sampleRate mediaDurationSec with hts
  have htspos : 1 ≤ ts := by
    rw [hts, composeTotalSamples]
    exact one_le_max_one_toNat _
  have hwc : 1 ≤ composeWritableCount seg sampleRate ts := by
    rw [composeWritableCount, hsi]
    refine le_min (resampleLinear_ne_nil _ _ _ hne) (le_min ?_ ?_)
    · rw [composeWindowSamples]
      exact one_le_max_one_toNat _
    · omega
  rw [composeDubbedTimeline, if_neg (by simp), ← hts]
  refine ⟨_, rfl, ?_⟩
  have hlenb : ((List.range ts).map
      (fun i => clampInt16
        (List.foldl (accumulateSegment sampleRate ts) (fun _ => 0) [seg] i))).length = ts := by
    rw [List.length_map, List.length_range]
  rw [List.getD_eq_getElem _ _ (by rw [hlenb]; omega)]
  rw [List.getElem_map, List.getElem_range]
  rw [List.foldl, List.foldl]
  simp only [accumulateSegment, hsi]
  rw [if_pos ⟨Nat.le_refl 0, by omega⟩]
  rw [Nat.sub_zero, zero_add]

/-- Witness for C10: a segment starting at -1/2 s still composes, at index 0. -/
theorem compose_negative_start_witness :
    ((-1 / 2 : ℚ) < 0 ∧ ([5, 6] : List Int) ≠ []) ∧
    (composeStartIndex ⟨-1 / 2, 1, 1, ⟨8, [5, 6]⟩⟩ 8 = 0 ∧
      ∃ b, composeDubbedTimeline [⟨-1 / 2, 1, 1, ⟨8, [5, 6]⟩⟩] 8 0 = .ok b ∧
        b.samples.getD 0 0 =
          clampInt16 (toInt32Wrap ((resampleLinear [5, 6] 8 8).getD 0 0))) :=
  ⟨⟨by norm_num, by decide⟩,
    compose_negative_start ⟨-1 / 2, 1, 1, ⟨8, [5, 6]⟩⟩ 8 0 (by norm_num) (by decide)⟩

/-! ### C6: the composed output does not depend on segment order -/

lemma foldl_perm_of_comm {α β : Type} (f : β → α → β)
    (hf : ∀ b a₁ a₂, f (f b a₁) a₂ = f (f b a₂) a₁) :
    ∀ {l₁ l₂ : List α}, l₁.Perm l₂ → ∀ b, l₁.foldl f b = l₂.foldl f b := by
  intro l₁ l₂ h
  induction h with
  | nil => intro b; rfl
  | cons x _ ih => intro b; simp only [List.foldl_cons]; exact ih _
  | swap x y l => intro b; simp only [List.foldl_cons]; rw [hf]
  | trans _ _ ih₁ ih₂ => intro b; rw [ih₁ b, ih₂ b]

lemma accumulateSegment_comm (sampleRate totalSamples : Nat) (acc : Nat → Int)
    (s₁ s₂ : Segment) :
    accumulateSegment sampleRate totalSamples
      (accumulateSegment sampleRate totalSamples acc s₁) s₂ =
    accumulateSegment sampleRate totalSamples
      (accumulateSegment sampleRate totalSamples acc s₂) s₁ := by
  funext i
  simp only [accumulateSegment]
  by_cases h1 : composeStartIndex s₁ sampleRate ≤ i ∧
      i < composeStartIndex s₁ sampleRate + composeWritableCount s₁ sampleRate totalSamples
  · by_cases h2 : composeStartIndex s₂ sampleRate ≤ i ∧
        i < composeStartIndex s₂ sampleRate + composeWritableCount s₂ sampleRate totalSamples
    · simp only [if_pos h1, if_pos h2]
      rw [toInt32Wrap_add_left, toInt32Wrap_add_left]
      congr 1
      ring
    · simp only [if_pos h1, if_neg h2]
  · by_cases h2 : composeStartIndex s₂ sampleRate ≤ i ∧
        i < composeStartIndex s₂ sampleRate + composeWritableCount s₂ sampleRate totalSamples
    · simp only [if_neg h1, if_pos h2]
    · simp only [if_neg h1, if_neg h2]

lemma le_foldl_max (l : List ℚ) : ∀ a : ℚ, a ≤ l.foldl max a := by
  induction l with
  | nil => intro a; exact le_refl a
  | cons x xs ih => intro a; exact le_trans (le_max_left a x) (ih (max a x))

lemma mem_le_foldl_max (l : List ℚ) : ∀ (a x : ℚ), x ∈ l → x ≤ l.foldl max a := by
  induction l with
  | nil => intro a x hx; cases hx
  | cons y ys ih =>
    intro a x hx
    rcases List.mem_cons.mp hx with rfl | hmem
    · exact le_trans (le_max_right a x) (le_foldl_max ys (max a x))
    · exact ih (max a y) x hmem

lemma foldl_max_choice (l : List ℚ) : ∀ a : ℚ, l.foldl max a = a ∨ l.foldl max a ∈ l := by
  induction l with
  | nil => intro a; exact Or.inl rfl
  | cons y ys ih =>
    intro a
    rcases ih (max a y) with heq | hmem
    · rcases max_choice a y with hc | hc
      · exact Or.inl (by rw [List.foldl_cons, heq, hc])
      · exact Or.inr (by rw [List.foldl_cons, heq, hc]; exact List.mem_cons_self y ys)
    · exact Or.inr (List.mem_cons_of_mem y hmem)

lemma jsMaxList_mem (l : List ℚ) (h : l ≠ []) : jsMaxList l ∈ l := by
  cases l with
  | nil => exact absurd rfl h
  | cons x xs =>
    rcases foldl_max_choice xs x with heq | hmem
    · rw [jsMaxList, heq]; exact List.mem_cons_self x xs
    · rw [jsMaxList]; exact List.mem_cons_of_mem x hmem

lemma le_jsMaxList (l : List ℚ) (x : ℚ) (hx : x ∈ l) : x ≤ jsMaxList l := by
  cases l with
  | nil => cases hx
  | cons y ys =>
    rcases List.mem_cons.mp hx with rfl | hmem
    · rw [jsMaxList]; exact le_foldl_max ys x
    · rw [jsMaxList]; exact mem_le_foldl_max ys y x hmem

lemma jsMaxList_perm (l₁ l₂ : List ℚ) (h : l₁.Perm l₂) : jsMaxList l₁ = jsMaxList l₂ := by
  by_cases h0 : l₁ = []
  · subst h0
    rw [List.Perm.eq_nil h.symm]
  · have h2 : l₂ ≠ [] := by
      intro hnil
      exact h0 (List.Perm.eq_nil (hnil ▸ h))
    exact le_antisymm
      (le_jsMaxList l₂ _ (h.mem_iff.mp (jsMaxList_mem l₁ h0)))
      (le_jsMaxList l₁ _ (h.mem_iff.mpr (jsMaxList_mem l₂ h2)))

/-- C6: the composed buffer is invariant under permuting the segment list:
per-index accumulation is (wrapping) addition, which is commutative, and the
inferred duration is a maximum, which is order-insensitive. -/
theorem compose_perm_invariant (segs₁ segs₂ : List Segment) (sampleRate : Nat)
    (mediaDurationSec : ℚ) (h : segs₁.Perm segs₂) :
    composeDubbedTimeline segs₁ sampleRate mediaDurationSec =
      composeDubbedTimeline segs₂ sampleRate mediaDurationSec := by
  have hinf : inferredDurationSec segs₁ = inferredDurationSec segs₂ :=
    jsMaxList_perm _ _ ((h.map _).append (h.map _))
  have hts : composeTotalSamples segs₁ sampleRate mediaDurationSec =
      composeTotalSamples segs₂ sampleRate mediaDurationSec := by
    rw [composeTotalSamples, composeTotalSamples, hinf]
  by_cases h0 : segs₁ = []
  · subst h0
    rw [List.Perm.eq_nil h.symm]
  · have h2 : segs₂ ≠ [] := fun hnil => h0 (List.Perm.eq_nil (hnil ▸ h))
    rw [composeDubbedTimeline, composeDubbedTimeline,
      if_neg (by simp [h0]), if_neg (by simp [h2]), hts]
    have hacc : List.foldl (accumulateSegment sampleRate
          (composeTotalSamples segs₂ sampleRate mediaDurationSec)) (fun _ => 0) segs₁ =
        List.foldl (accumulateSegment sampleRate
          (composeTotalSamples segs₂ sampleRate mediaDurationSec)) (fun _ => 0) segs₂ :=
      foldl_perm_of_comm _ (accumulateSegment_comm sampleRate _) h _
    rw [hacc]

/-- Witness for C6: swapping two concrete segments leaves the output equal. -/
theorem compose_perm_invariant_witness :
    ([⟨0, 1, 1, ⟨4, [1, 2]⟩⟩, ⟨1, 2, 1, ⟨4, [3, 4]⟩⟩] : List Segment).Perm
      [⟨1, 2, 1, ⟨4, [3, 4]⟩⟩, ⟨0, 1, 1, ⟨4, [1, 2]⟩⟩] ∧
    composeDubbedTimeline [⟨0, 1, 1, ⟨4, [1, 2]⟩⟩, ⟨1, 2, 1, ⟨4, [3, 4]⟩⟩] 4 0 =
      composeDubbedTimeline [⟨1, 2, 1, ⟨4, [3, 4]⟩⟩, ⟨0, 1, 1, ⟨4, [1, 2]⟩⟩] 4 0 :=
  ⟨List.Perm.swap _ _ _,
    compose_perm_invariant _ _ 4 0 (List.Perm.swap _ _ _)⟩

/-! ### C3: linear interpolation of int16 samples stays in the int16 domain -/

lemma roundHalfUp_mem_int16 (x : ℚ) (h1 : -32768 ≤ x) (h2 : x ≤ 32767) :
    -32768 ≤ roundHalfUp x ∧ roundHalfUp x ≤ 32767 := by
  constructor
  · rw [roundHalfUp]
    refine Int.le_floor.mpr ?_
    push_cast
    linarith
  · rw [roundHalfUp]
    have : ⌊x + 1 / 2⌋ < 32768 := Int.floor_lt.mpr (by push_cast; linarith)
    omega

lemma getD_mem_of_lt (samples : List Int) (k : Nat) (hk : k < samples.length) :
    samples.getD k 0 ∈ samples := by
  rw [List.getD_eq_getElem _ _ hk]
  exact List.getElem_mem hk

lemma interpValue_bounds (samples : List Int) (ratio : ℚ) (i : Nat)
    (hne : samples ≠ []) (hdom : ∀ v ∈ samples, -32768 ≤ v ∧ v ≤ 32767)
    (hratio : 0 < ratio) (hi : i < resampleTargetLength samples.length ratio) :
    -32768 ≤ interpValue samples ratio i ∧ interpValue samples ratio i ≤ 32767 := by
  have hn : 1 ≤ samples.length := List.length_pos.mpr hne
  have hp0 : 0 ≤ (i : ℚ) / ratio := div_nonneg (Nat.cast_nonneg i) hratio.le
  have hplt : (i : ℚ) / ratio < (samples.length : ℚ) := by
    rcases Nat.eq_zero_or_pos i with rfl | hi1
    · rw [Nat.cast_zero, zero_div]
      exact_mod_cast hn
    · have h2 : 2 ≤ resampleTargetLength samples.length ratio := by omega
      rw [resampleTargetLength] at hi h2
      have hr2 : 2 ≤ roundHalfUp ((samples.length : ℚ) * ratio) := by omega
      have hir : (i : ℤ) ≤ roundHalfUp ((samples.length : ℚ) * ratio) - 1 := by omega
      have hrle : (roundHalfUp ((samples.length : ℚ) * ratio) : ℚ) ≤
          (samples.length : ℚ) * ratio + 1 / 2 := by
        rw [roundHalfUp]
        exact Int.floor_le _
      have hile : (i : ℚ) ≤ (samples.length : ℚ) * ratio - 1 / 2 := by
        have h3 : (i : ℚ) ≤ (roundHalfUp ((samples.length : ℚ) * ratio) : ℚ) - 1 := by
          exact_mod_cast hir
        linarith
      rw [div_lt_iff hratio]
      linarith
  have hleft0 : 0 ≤ ⌊(i : ℚ) / ratio⌋ := Int.floor_nonneg.mpr hp0
  have hleftlt : ⌊(i : ℚ) / ratio⌋ < (samples.length : ℤ) :=
    Int.floor_lt.mpr (by exact_mod_cast hplt)
  have hleftn : (⌊(i : ℚ) / ratio⌋).toNat < samples.length := by omega
  have hrt0 : 0 ≤ min (⌊(i : ℚ) / ratio⌋ + 1) ((samples.length : ℤ) - 1) := by omega
  have hrtn : (min (⌊(i : ℚ) / ratio⌋ + 1) ((samples.length : ℤ) - 1)).toNat <
      samples.length := by omega
  have ha := hdom _ (getD_mem_of_lt samples _ hleftn)
  have hb := hdom _ (getD_mem_of_lt samples _ hrtn)
  have hα0 : 0 ≤ (i : ℚ) / ratio - (⌊(i : ℚ) / ratio⌋ : ℚ) := by
    linarith [Int.floor_le ((i : ℚ) / ratio)]
  have hα1 : (i : ℚ) / ratio - (⌊(i : ℚ) / ratio⌋ : ℚ) ≤ 1 := by
    linarith [Int.lt_floor_add_one ((i : ℚ) / ratio)]
  rw [interpValue]
  refine roundHalfUp_mem_int16 _ ?_ ?_
  · have haq : (-32768 : ℚ) ≤ (samples.getD (⌊(i : ℚ) / ratio⌋).toNat 0 : ℚ) := by
      exact_mod_cast ha.1
    have hbq : (-32768 : ℚ) ≤
        (samples.getD (min (⌊(i : ℚ) / ratio⌋ + 1) ((samples.length : ℤ) - 1)).toNat 0 : ℚ) := by
      exact_mod_cast hb.1
    nlinarith [mul_nonneg (by linarith : (0 : ℚ) ≤ (samples.getD (⌊(i : ℚ) / ratio⌋).toNat 0 : ℚ) + 32768)
        (by linarith : (0 : ℚ) ≤ 1 - ((i : ℚ) / ratio - (⌊(i : ℚ) / ratio⌋ : ℚ))),
      mul_nonneg (by linarith : (0 : ℚ) ≤
          (samples.getD (min (⌊(i : ℚ) / ratio⌋ + 1) ((samples.length : ℤ) - 1)).toNat 0 : ℚ) + 32768)
        (by linarith : (0 : ℚ) ≤ (i : ℚ) / ratio - (⌊(i : ℚ) / ratio⌋ : ℚ))]
  · have haq : (samples.getD (⌊(i : ℚ) / ratio⌋).toNat 0 : ℚ) ≤ 32767 := by
      exact_mod_cast ha.2
    have hbq :
        (samples.getD (min (⌊(i : ℚ) / ratio⌋ + 1) ((samples.length : ℤ) - 1)).toNat 0 : ℚ) ≤ 32767 := by
      exact_mod_cast hb.2
    nlinarith [mul_nonneg (by linarith : (0 : ℚ) ≤ 32767 - (samples.getD (⌊(i : ℚ) / ratio⌋).toNat 0 : ℚ))
        (by linarith : (0 : ℚ) ≤ 1 - ((i : ℚ) / ratio - (⌊(i : ℚ) / ratio⌋ : ℚ))),
      mul_nonneg (by linarith : (0 : ℚ) ≤ 32767 -
          (samples.getD (min (⌊(i : ℚ) / ratio⌋ + 1) ((samples.length : ℤ) - 1)).toNat 0 : ℚ))
        (by linarith : (0 : ℚ) ≤ (i : ℚ) / ratio - (⌊(i : ℚ) / ratio⌋ : ℚ))]

/-- C3: for a non-empty in-domain int16 input and positive rates, every
output sample of `resampleLinear` lies in `[-32768, 32767]`, and the
`Int16Array` store never wraps: rounding a linear interpolation of two
in-domain samples is already in-domain, so no clamping step is needed. -/
theorem resample_int16_safe (samples : List Int) (sourceRate targetRate : Nat)
    (hne : samples ≠ []) (hdom : ∀ v ∈ samples, -32768 ≤ v ∧ v ≤ 32767)
    (hs : 0 < sourceRate) (ht : 0 < targetRate) :
    (∀ v ∈ resampleLinear samples sourceRate targetRate, -32768 ≤ v ∧ v ≤ 32767) ∧
    (∀ i, i < resampleTargetLength samples.length ((targetRate : ℚ) / (sourceRate : ℚ)) →
      toInt16Wrap (interpValue samples ((targetRate : ℚ) / (sourceRate : ℚ)) i) =
        interpValue samples ((targetRate : ℚ) / (sourceRate : ℚ)) i) := by
  have hratio : 0 < (targetRate : ℚ) / (sourceRate : ℚ) :=
    div_pos (by exact_mod_cast ht) (by exact_mod_cast hs)
  constructor
  · intro v hv
    rw [resampleLinear] at hv
    split at hv
    · exact hdom v hv
    · rw [List.mem_map] at hv
      obtain ⟨i, hi, rfl⟩ := hv
      rw [List.mem_range] at hi
      have hb := interpValue_bounds samples _ i hne hdom hratio hi
      rw [toInt16Wrap_eq_self _ hb.1 hb.2]
      exact hb
  · intro i hi
    have hb := interpValue_bounds samples _ i hne hdom hratio hi
    exact toInt16Wrap_eq_self _ hb.1 hb.2

/-- Witness for C3: upsampling a two-sample buffer from 2 Hz to 3 Hz. -/
theorem resample_int16_safe_witness :
    (∀ v ∈ resampleLinear [100, -100] 2 3, -32768 ≤ v ∧ v ≤ 32767) ∧
    (∀ i, i < resampleTargetLength ([100, -100] : List Int).length ((3 : ℚ) / (2 : ℚ)) →
      toInt16Wrap (interpValue [100, -100] ((3 : ℚ) / (2 : ℚ)) i) =
        interpValue [100, -100] ((3 : ℚ) / (2 : ℚ)) i) := by
  have h := resample_int16_safe [100, -100] 2 3 (by decide)
    (by intro v hv; fin_cases hv <;> norm_num) (by norm_num) (by norm_num)
  exact_mod_cast h

/-! ### Evaluation helpers for the chunk scanner -/

/-- Total form of `readU16LE`, valid when the read is in bounds. -/
def readU16LED (d : List Nat) (i : Nat) : Nat :=
  d.getD i 0 + 256 * d.getD (i + 1) 0

/-- Total form of `readU32LE`, valid when the read is in bounds. -/
def readU32LED (d : List Nat) (i : Nat) : Nat :=
  d.getD i 0 + 256 * d.getD (i + 1) 0 + 65536 * d.getD (i + 2) 0 +
    16777216 * d.getD (i + 3) 0

lemma byteAt_eq_some_getD (d : List Nat) : ∀ (k : Nat), k < d.length →
    byteAt d k = some (d.getD k 0) := by
  induction d with
  | nil => intro k hk; cases hk
  | cons b rest ih =>
    intro k hk
    cases k with
    | zero => rfl
    | succ k =>
      rw [show byteAt (b :: rest) (k + 1) = byteAt rest k from rfl]
      rw [show (b :: rest).getD (k + 1) 0 = rest.getD k 0 from rfl]
      exact ih k (by simpa using hk)

lemma readU16LE_eq_some (d : List Nat) (i : Nat) (h : i + 2 ≤ d.length) :
    readU16LE d i = some (readU16LED d i) := by
  rw [readU16LE, byteAt_eq_some_getD d i (by omega),
    byteAt_eq_some_getD d (i + 1) (by omega)]
  rfl

lemma readU32LE_eq_some (d : List Nat) (i : Nat) (h : i + 4 ≤ d.length) :
    readU32LE d i = some (readU32LED d i) := by
  rw [readU32LE, byteAt_eq_some_getD d i (by omega),
    byteAt_eq_some_getD d (i + 1) (by omega), byteAt_eq_some_getD d (i + 2) (by omega),
    byteAt_eq_some_getD d (i + 3) (by omega)]
  rfl

/-- Fuel-indexed twin of `scanChunks`, used to evaluate it on concrete byte
streams: since each step advances the offset by at least 8, `fuel` iterations
suffice whenever `d.length ≤ offset + 8 * fuel`. -/
def scanChunksFuel : Nat → List Nat → Nat → Nat → Nat → Nat →
    Except WavError (Option (Nat × Nat) × Nat × Nat × Nat)
  | 0, _, _, channels, sampleRate, bits => .ok (none, channels, sampleRate, bits)
  | fuel + 1, d, offset, channels, sampleRate, bits =>
    if offset + 8 ≤ d.length then
      match readU32LE d (offset + 4) with
      | none => .error .rangeError
      | some chunkSize =>
        if ascii4 d offset = [102, 109, 116, 32] then
          match readU16LE d (offset + 8 + 2), readU32LE d (offset + 8 + 4),
              readU16LE d (offset + 8 + 14) with
          | some ch, some sr, some bps =>
              scanChunksFuel fuel d (offset + 8 + chunkSize) ch sr bps
          | _, _, _ => .error .rangeError
        else if ascii4 d offset = [100, 97, 116, 97] then
          .ok (some (offset + 8, chunkSize), channels, sampleRate, bits)
        else
          scanChunksFuel fuel d (offset + 8 + chunkSize) channels sampleRate bits
    else
      .ok (none, channels, sampleRate, bits)

lemma scanChunks_eq_fuel (fuel : Nat) :
    ∀ (d : List Nat) (offset channels sampleRate bits : Nat),
      d.length ≤ offset + 8 * fuel →
      scanChunks d offset channels sampleRate bits =
        scanChunksFuel fuel d offset channels sampleRate bits := by
  induction fuel with
  | zero =>
    intro d offset c s b h
    rw [scanChunks.eq_def, dif_neg (by omega)]
    rfl
  | succ fuel ih =>
    intro d offset c s b h
    rw [scanChunks.eq_def, scanChunksFuel]
    by_cases hguard : offset + 8 ≤ d.length
    · rw [dif_pos hguard, if_pos hguard]
      cases hsz : readU32LE d (offset + 4) with
      | none => rfl
      | some chunkSize =>
        dsimp only
        by_cases hfmt : ascii4 d offset = [102, 109, 116, 32]
        · rw [if_pos hfmt, if_pos hfmt]
          cases readU16LE d (offset + 8 + 2) with
          | none => rfl
          | some ch =>
            cases readU32LE d (offset + 8 + 4) with
            | none => rfl
            | some sr =>
              cases readU16LE d (offset + 8 + 14) with
              | none => rfl
              | some bps => exact ih d _ ch sr bps (by omega)
        · rw [if_neg hfmt, if_neg hfmt]
          by_cases hdata : ascii4 d offset = [100, 97, 116, 97]
          · rw [if_pos hdata, if_pos hdata]
          · rw [if_neg hdata, if_neg hdata]
            exact ih d _ c s b (by omega)
    · rw [dif_neg hguard, if_neg hguard]

/-! ### C9: a WAV with a data chunk but no fmt chunk parses with the defaults -/

/-- Whether the chunk scan of `readWavPcm16Mono` meets a `"fmt "` chunk
before stopping (at a `"data"` chunk or at the end of the stream). -/
def scanSeesFmt (d : List Nat) (offset : Nat) : Bool :=
  if _h : offset + 8 ≤ d.length then
    if ascii4 d offset = [102, 109, 116, 32] then true
    else if ascii4 d offset = [100, 97, 116, 97] then false
    else scanSeesFmt d (offset + 8 + readU32LED d (offset + 4))
  else false
termination_by d.length - offset
decreasing_by omega

/-- Whether the chunk scan of `readWavPcm16Mono` finds a `"data"` chunk. -/
def scanFindsData (d : List Nat) (offset : Nat) : Bool :=
  if _h : offset + 8 ≤ d.length then
    if ascii4 d offset = [100, 97, 116, 97] then true
    else scanFindsData d (offset + 8 + readU32LED d (offset + 4))
  else false
termination_by d.length - offset
decreasing_by omega

lemma scanChunks_no_fmt (d : List Nat) (c s b : Nat) (offset : Nat)
    (h1 : scanSeesFmt d offset = false) (h2 : scanFindsData d offset = true) :
    ∃ lo lsz, scanChunks d offset c s b = .ok (some (lo, lsz), c, s, b) := by
  rw [scanSeesFmt.eq_def] at h1
  rw [scanFindsData.eq_def] at h2
  rw [scanChunks.eq_def]
  by_cases hguard : offset + 8 ≤ d.length
  · rw [dif_pos hguard] at h1 h2 ⊢
    by_cases hfmt : ascii4 d offset = [102, 109, 116, 32]
    · rw [if_pos hfmt] at h1
      exact absurd h1 (by simp)
    · rw [if_neg hfmt] at h1
      rw [readU32LE_eq_some d (offset + 4) (by omega)]
      dsimp only
      rw [if_neg hfmt]
      by_cases hdata : ascii4 d offset = [100, 97, 116, 97]
      · rw [if_pos hdata]
        exact ⟨offset + 8, readU32LED d (offset + 4), rfl⟩
      · rw [if_neg hdata] at h1 h2
        rw [if_neg hdata]
        exact scanChunks_no_fmt d c s b (offset + 8 + readU32LED d (offset + 4)) h1 h2
  · rw [dif_neg hguard] at h2
    exact absurd h2 (by simp)
termination_by d.length - offset
decreasing_by omega

/-- C9: an input of at least 44 bytes with valid markers that contains a
`"data"` chunk but meets no `"fmt "` chunk parses successfully, with the
default fmt fields: mono, 16 bits, sample rate 24000. -/
theorem parse_no_fmt_defaults (d : List Nat)
    (h1 : ¬ d.length < 44)
    (h2 : ascii4 d 0 = [82, 73, 70, 70] ∧ ascii4 d 8 = [87, 65, 86, 69])
    (h3 : scanSeesFmt d 12 = false) (h4 : scanFindsData d 12 = true) :
    ∃ r, readWavPcm16Mono d = .ok r ∧ r.sampleRate = 24000 ∧ r.channels = 1 ∧
      r.bitsPerSample = 16 := by
  obtain ⟨lo, lsz, hscan⟩ := scanChunks_no_fmt d 1 24000 16 12 h3 h4
  refine ⟨⟨24000, 1, 16, decodeInt16Pairs ((d.drop lo).take lsz)⟩, ?_, rfl, rfl, rfl⟩
  rw [readWavPcm16Mono, if_neg h1, if_neg (not_not_intro h2), hscan]
  dsimp only
  rw [if_neg (by norm_num), if_pos rfl]

/-- Witness for C9: 44 bytes of RIFF/WAVE header followed directly by a
`"data"` chunk of 24 zero bytes, and no `"fmt "` chunk anywhere. -/
theorem parse_no_fmt_defaults_witness :
    ∃ r, readWavPcm16Mono
        [82, 73, 70, 70, 36, 0, 0, 0, 87, 65, 86, 69, 100, 97, 116, 97, 24, 0, 0, 0,
          0, 0, 0, 0, 0, 0, 0, 0, 0, 0, 0, 0, 0, 0, 0, 0, 0, 0, 0, 0, 0, 0, 0, 0] = .ok r ∧
      r.sampleRate = 24000 ∧ r.channels = 1 ∧ r.bitsPerSample = 16 :=
  parse_no_fmt_defaults _ (by decide) (by decide)
    (by rw [scanSeesFmt.eq_def]; decide) (by rw [scanFindsData.eq_def]; decide)

/-! ### C7: multi-channel input is downmixed by average, round, clamp -/

lemma foldl_add_eq_sum {α : Type} (l : List α) (g : α → Int) (init : Int) :
    l.foldl (fun s x => s + g x) init = init + (l.map g).sum := by
  induction l generalizing init with
  | nil => simp
  | cons x xs ih =>
    rw [List.foldl_cons, List.map_cons, List.sum_cons, ih (init + g x)]
    ring

/-- C7: when the scan reports a fmt chunk with more than one channel (and
16 bits), `readWavPcm16Mono` succeeds and downmixes to mono: each output
frame is the per-channel sum divided by the channel count, rounded half-up,
and clamped into the int16 domain. -/
theorem parse_downmix (d : List Nat) (lo lsz channels sampleRate : Nat)
    (hlen : ¬ d.length < 44)
    (hmk : ascii4 d 0 = [82, 73, 70, 70] ∧ ascii4 d 8 = [87, 65, 86, 69])
    (hscan : scanChunks d 12 1 24000 16 = .ok (some (lo, lsz), channels, sampleRate, 16))
    (hch : 2 ≤ channels) :
    readWavPcm16Mono d = .ok ⟨sampleRate, 1, 16,
      (List.range ((decodeInt16Pairs ((d.drop lo).take lsz)).length / channels)).map
        (fun frame => clampInt16 (roundHalfUp
          (((((List.range channels).map (fun ch =>
              (decodeInt16Pairs ((d.drop lo).take lsz)).getD (frame * channels + ch) 0)).sum : ℤ) : ℚ) /
            (channels : ℚ))))⟩ := by
  rw [readWavPcm16Mono, if_neg hlen, if_neg (not_not_intro hmk), hscan]
  dsimp only
  rw [if_neg (by norm_num), if_neg (by omega : ¬channels = 1),
    if_neg (by intro hc; omega : ¬(channels = 0 ∧ ¬(d.drop lo).take lsz = []))]
  refine congrArg Except.ok ?_
  rw [downmixChannels]
  refine congrArg _ (List.map_congr_left ?_)
  intro frame _
  rw [foldl_add_eq_sum, zero_add]

/-- Witness for C7: a concrete 2-channel WAV whose single frame is
`(100, -100)`; it parses to the single mono sample `0`. -/
theorem parse_downmix_witness :
    readWavPcm16Mono
      [82, 73, 70, 70, 40, 0, 0, 0, 87, 65, 86, 69,
        102, 109, 116, 32, 16, 0, 0, 0, 1, 0, 2, 0, 64, 31, 0, 0, 0, 125, 0, 0, 4, 0, 16, 0,
        100, 97, 116, 97, 4, 0, 0, 0, 100, 0, 156, 255] =
      .ok ⟨8000, 1, 16, [0]⟩ := by
  have h := parse_downmix
    [82, 73, 70, 70, 40, 0, 0, 0, 87, 65, 86, 69,
      102, 109, 116, 32, 16, 0, 0, 0, 1, 0, 2, 0, 64, 31, 0, 0, 0, 125, 0, 0, 4, 0, 16, 0,
      100, 97, 116, 97, 4, 0, 0, 0, 100, 0, 156, 255]
    44 4 2 8000 (by decide) (by decide)
    (by
      rw [scanChunks_eq_fuel 6 _ 12 1 24000 16 (by decide)]
      decide)
    (by norm_num)
  rw [h]
  have hdec : decodeInt16Pairs
      (((([82, 73, 70, 70, 40, 0, 0, 0, 87, 65, 86, 69,
        102, 109, 116, 32, 16, 0, 0, 0, 1, 0, 2, 0, 64, 31, 0, 0, 0, 125, 0, 0, 4, 0, 16, 0,
        100, 97, 116, 97, 4, 0, 0, 0, 100, 0, 156, 255] : List Nat).drop 44)).take 4) =
      [100, -100] := by decide
  rw [hdec]
  have hsum : ((List.range 2).map
      (fun ch => ([100, -100] : List Int).getD (0 * 2 + ch) 0)).sum = 0 := by decide
  have hround : roundHalfUp ((((0 : ℤ) : ℚ)) / ((2 : ℕ) : ℚ)) = 0 := by
    rw [show (((0 : ℤ) : ℚ)) / ((2 : ℕ) : ℚ) = 0 by norm_num]
    exact roundHalfUp_eq 0 0 (by norm_num) (by norm_num)
  have hr1 : List.range (([100, -100] : List Int).length / 2) = [0] := by decide
  simp only [hr1, List.map_cons, List.map_nil, hsum, hround]
  rw [show clampInt16 0 = 0 by decide]

/-! ### C4: exact failure conditions of the WAV reader -/

lemma scanChunks_error_range (d : List Nat) (offset c s b : Nat) (e : WavError)
    (h : scanChunks d offset c s b = .error e) : e = .rangeError := by
  rw [scanChunks.eq_def] at h
  by_cases hguard : offset + 8 ≤ d.length
  · rw [dif_pos hguard] at h
    cases hsz : readU32LE d (offset + 4) with
    | none =>
      rw [hsz] at h
      dsimp only at h
      cases h
      rfl
    | some chunkSize =>
      rw [hsz] at h
      dsimp only at h
      by_cases hfmt : ascii4 d offset = [102, 109, 116, 32]
      · rw [if_pos hfmt] at h
        cases h1 : readU16LE d (offset + 8 + 2) with
        | none => rw [h1] at h; cases h; rfl
        | some ch =>
          cases h2 : readU32LE d (offset + 8 + 4) with
          | none => rw [h1, h2] at h; cases h; rfl
          | some sr =>
            cases h3 : readU16LE d (offset + 8 + 14) with
            | none => rw [h1, h2, h3] at h; cases h; rfl
            | some bps =>
              rw [h1, h2, h3] at h
              exact scanChunks_error_range d (offset + 8 + chunkSize) ch sr bps e h
      · rw [if_neg hfmt] at h
        by_cases hdata : ascii4 d offset = [100, 97, 116, 97]
        · rw [if_pos hdata] at h
          cases h
        · rw [if_neg hdata] at h
          exact scanChunks_error_range d (offset + 8 + chunkSize) c s b e h
  · rw [dif_neg hguard] at h
    cases h
termination_by d.length - offset
decreasing_by all_goals omega

/-- C4 (amended): `readWavPcm16Mono` fails with `invalidContainer` exactly
when the input is shorter than 44 bytes, a marker mismatches, or the chunk
scan completes without finding a `"data"` chunk (even if a fmt chunk
declared a bit depth other than 16: the data-chunk check runs first); it
fails with `unsupportedFormat` exactly when the length and markers are fine
and the scan finds a data chunk while the declared bits-per-sample is
not 16. -/
theorem parse_error_characterization (d : List Nat) :
    (readWavPcm16Mono d = .error .invalidContainer ↔
      (d.length < 44 ∨
        ¬(ascii4 d 0 = [82, 73, 70, 70] ∧ ascii4 d 8 = [87, 65, 86, 69]) ∨
        ∃ c s b, scanChunks d 12 1 24000 16 = .ok (none, c, s, b))) ∧
    (readWavPcm16Mono d = .error .unsupportedFormat ↔
      (¬ d.length < 44 ∧
        (ascii4 d 0 = [82, 73, 70, 70] ∧ ascii4 d 8 = [87, 65, 86, 69]) ∧
        ∃ lo lsz c s b, scanChunks d 12 1 24000 16 = .ok (some (lo, lsz), c, s, b) ∧
          b ≠ 16)) := by
  rw [readWavPcm16Mono]
  by_cases hl : d.length < 44
  · rw [if_pos hl]
    refine ⟨⟨fun _ => Or.inl hl, fun _ => rfl⟩, ⟨(fun h => by cases h), ?_⟩⟩
    rintro ⟨h1, _⟩
    exact absurd hl h1
  · rw [if_neg hl]
    by_cases hm : ascii4 d 0 = [82, 73, 70, 70] ∧ ascii4 d 8 = [87, 65, 86, 69]
    · rw [if_neg (not_not_intro hm)]
      cases hscan : scanChunks d 12 1 24000 16 with
      | error e =>
        have he : e = .rangeError := scanChunks_error_range d 12 1 24000 16 e hscan
        subst he
        dsimp only
        constructor
        · refine ⟨(fun h => by cases h), ?_⟩
          rintro (h | h | ⟨c, s, b, h⟩)
          · exact absurd h hl
          · exact absurd hm h
          · simp at h
        · refine ⟨(fun h => by cases h), ?_⟩
          rintro ⟨_, _, lo, lsz, c, s, b, h, _⟩
          simp at h
      | ok res =>
        obtain ⟨opt, c, s, b⟩ := res
        cases opt with
        | none =>
          dsimp only
          constructor
          · exact ⟨fun _ => Or.inr (Or.inr ⟨c, s, b, rfl⟩), fun _ => rfl⟩
          · refine ⟨(fun h => by cases h), ?_⟩
            rintro ⟨_, _, lo, lsz, c', s', b', h, _⟩
            simp at h
        | some loc =>
          obtain ⟨lo, lsz⟩ := loc
          dsimp only
          by_cases hb : b = 16
          · subst hb
            rw [if_neg (by norm_num)]
            have hok : ∀ e : WavError,
                (if c = 1 then
                  (.ok ⟨s, c, 16, decodeInt16Pairs ((d.drop lo).take lsz)⟩ :
                    Except WavError WavReadResult)
                else if c = 0 ∧ ¬(d.drop lo).take lsz = [] then .error .rangeError
                else .ok ⟨s, 1, 16,
                  downmixChannels c (decodeInt16Pairs ((d.drop lo).take lsz))⟩) =
                  .error e → e = .rangeError := by
              intro e he
              by_cases hc1 : c = 1
              · rw [if_pos hc1] at he
                cases he
              · rw [if_neg hc1] at he
                by_cases hc0 : c = 0 ∧ ¬(d.drop lo).take lsz = []
                · rw [if_pos hc0] at he
                  cases he
                  rfl
                · rw [if_neg hc0] at he
                  cases he
            constructor
            · refine ⟨(fun h => by cases hok _ h), ?_⟩
              rintro (h | h | ⟨c', s', b', h⟩)
              · exact absurd h hl
              · exact absurd hm h
              · simp at h
            · refine ⟨(fun h => by cases hok _ h), ?_⟩
              rintro ⟨_, _, lo', lsz', c', s', b', h, hb16⟩
              simp only [Except.ok.injEq, Prod.mk.injEq, Option.some.injEq] at h
              exact (hb16 h.2.2.2.symm).elim
          · rw [if_pos hb]
            constructor
            · refine ⟨(fun h => by cases h), ?_⟩
              rintro (h | h | ⟨c', s', b', h⟩)
              · exact absurd h hl
              · exact absurd hm h
              · simp at h
            · exact ⟨fun _ => ⟨hl, hm, lo, lsz, c, s, b, rfl, hb⟩, fun _ => rfl⟩
    · rw [if_pos hm]
      constructor
      · exact ⟨fun _ => Or.inr (Or.inl hm), fun _ => rfl⟩
      · refine ⟨(fun h => by cases h), ?_⟩
        rintro ⟨_, h, _⟩
        exact absurd h hm

/-- A 44-byte WAV whose fmt chunk declares 8 bits per sample but which has
no data chunk (a 0-length `"JUNK"` chunk follows the fmt chunk instead). -/
def wavBits8NoData : List Nat :=
  [82, 73, 70, 70, 36, 0, 0, 0, 87, 65, 86, 69,
    102, 109, 116, 32, 16, 0, 0, 0, 1, 0, 1, 0, 64, 31, 0, 0, 128, 62, 0, 0, 2, 0, 8, 0,
    74, 85, 78, 75, 0, 0, 0, 0]

/-- A 44-byte WAV whose declared chunk sizes place a `"fmt "` chunk header
at the very end of the stream, so reading its fields runs past the end. -/
def wavTruncatedFmt : List Nat :=
  [82, 73, 70, 70, 36, 0, 0, 0, 87, 65, 86, 69,
    74, 85, 78, 75, 16, 0, 0, 0, 0, 0, 0, 0, 0, 0, 0, 0, 0, 0, 0, 0, 0, 0, 0, 0,
    102, 109, 116, 32, 0, 0, 0, 0]

/-- Counterexample to C4 as stated: `wavBits8NoData` declares 8 bits per
sample, yet parsing fails with `invalidContainer` (the missing data chunk
wins), not `UnsupportedFormat`; and `wavTruncatedFmt` fails with an
out-of-range read error, a third failure kind beyond the claimed two. -/
theorem parse_error_kinds_counterexample :
    scanChunks wavBits8NoData 12 1 24000 16 = .ok (none, 1, 8000, 8) ∧
    readWavPcm16Mono wavBits8NoData = .error .invalidContainer ∧
    readWavPcm16Mono wavTruncatedFmt = .error .rangeError := by
  have hscan1 : scanChunks wavBits8NoData 12 1 24000 16 = .ok (none, 1, 8000, 8) := by
    rw [scanChunks_eq_fuel 6 wavBits8NoData 12 1 24000 16 (by decide)]
    decide
  have hscan2 : scanChunks wavTruncatedFmt 12 1 24000 16 = .error .rangeError := by
    rw [scanChunks_eq_fuel 6 wavTruncatedFmt 12 1 24000 16 (by decide)]
    decide
  refine ⟨hscan1, ?_, ?_⟩
  · rw [readWavPcm16Mono, hscan1]
    decide
  · rw [readWavPcm16Mono, hscan2]
    decide

/-! ### C1: serialize / parse round-trip -/

lemma flatten_int16_length (samples : List Int) :
    ((samples.map int16LEBytes).flatten).length = 2 * samples.length := by
  induction samples with
  | nil => rfl
  | cons v rest ih =>
    rw [List.map_cons, List.flatten_cons, List.length_append, ih]
    rw [show (int16LEBytes v).length = 2 from rfl]
    rw [List.length_cons]
    omega

lemma decode_encode (samples : List Int)
    (hdom : ∀ v ∈ samples, -32768 ≤ v ∧ v ≤ 32767) :
    decodeInt16Pairs ((samples.map int16LEBytes).flatten) = samples := by
  induction samples with
  | nil => rfl
  | cons v rest ih =>
    have hv := hdom v (List.mem_cons_self v rest)
    have hrest : ∀ x ∈ rest, -32768 ≤ x ∧ x ≤ 32767 :=
      fun x hx => hdom x (List.mem_cons_of_mem v hx)
    rw [List.map_cons, List.flatten_cons]
    rw [show int16LEBytes v ++ (rest.map int16LEBytes).flatten =
      (v % 65536).toNat % 256 ::
        ((v % 65536).toNat / 256 :: (rest.map int16LEBytes).flatten) from rfl]
    rw [decodeInt16Pairs, ih hrest]
    congr 1
    rw [toInt16]
    have h65536 : (v % 65536).toNat % 256 + 256 * ((v % 65536).toNat / 256) =
        (v % 65536).toNat := by omega
    rw [h65536]
    split
    · omega
    · omega

lemma readU16LE_of_bytes (d : List Nat) (i : Nat) (b0 b1 : Nat)
    (h0 : byteAt d i = some b0) (h1 : byteAt d (i + 1) = some b1) :
    readU16LE d i = some (b0 + 256 * b1) := by
  rw [readU16LE, h0, h1]

lemma readU32LE_of_bytes (d : List Nat) (i : Nat) (b0 b1 b2 b3 : Nat)
    (h0 : byteAt d i = some b0) (h1 : byteAt d (i + 1) = some b1)
    (h2 : byteAt d (i + 2) = some b2) (h3 : byteAt d (i + 3) = some b3) :
    readU32LE d i = some (b0 + 256 * b1 + 65536 * b2 + 16777216 * b3) := by
  rw [readU32LE, h0, h1, h2, h3]

set_option maxHeartbeats 1600000 in
lemma writeWav_bytes_eq (sr : Nat) (samples : List Int) :
    writeWavPcm16MonoBytes sr samples =
      82 :: 73 :: 70 :: 70 ::
      (36 + ((samples.map int16LEBytes).flatten).length) % 256 ::
      (36 + ((samples.map int16LEBytes).flatten).length) / 256 % 256 ::
      (36 + ((samples.map int16LEBytes).flatten).length) / 65536 % 256 ::
      (36 + ((samples.map int16LEBytes).flatten).length) / 16777216 % 256 ::
      87 :: 65 :: 86 :: 69 ::
      102 :: 109 :: 116 :: 32 ::
      16 :: 0 :: 0 :: 0 ::
      1 :: 0 :: 1 :: 0 ::
      sr % 256 :: sr / 256 % 256 :: sr / 65536 % 256 :: sr / 16777216 % 256 ::
      sr * 1 * 2 % 256 :: sr * 1 * 2 / 256 % 256 ::
      sr * 1 * 2 / 65536 % 256 :: sr * 1 * 2 / 16777216 % 256 ::
      2 :: 0 :: 16 :: 0 ::
      100 :: 97 :: 116 :: 97 ::
      ((samples.map int16LEBytes).flatten).length % 256 ::
      ((samples.map int16LEBytes).flatten).length / 256 % 256 ::
      ((samples.map int16LEBytes).flatten).length / 65536 % 256 ::
      ((samples.map int16LEBytes).flatten).length / 16777216 % 256 ::
      (samples.map int16LEBytes).flatten := by
  simp only [writeWavPcm16MonoBytes, pcm16ToWavBuffer, u32le, u16le, List.cons_append,
    List.nil_append]

set_option maxHeartbeats 3200000 in
lemma readWav_writeWav (sr : Nat) (samples : List Int)
    (hsr : sr < 4294967296) (hn : 36 + 2 * samples.length < 4294967296)
    (hdom : ∀ v ∈ samples, -32768 ≤ v ∧ v ≤ 32767) :
    readWavPcm16Mono (writeWavPcm16MonoBytes sr samples) = .ok ⟨sr, 1, 16, samples⟩ := by
  have E := writeWav_bytes_eq sr samples
  have hL := flatten_int16_length samples
  have hlen : (writeWavPcm16MonoBytes sr samples).length = 44 + 2 * samples.length := by
    rw [E]
    simp only [List.length_cons]
    omega
  have hm0 : ascii4 (writeWavPcm16MonoBytes sr samples) 0 = [82, 73, 70, 70] := by
    rw [E]; rfl
  have hm8 : ascii4 (writeWavPcm16MonoBytes sr samples) 8 = [87, 65, 86, 69] := by
    rw [E]; rfl
  have hfmt12 : ascii4 (writeWavPcm16MonoBytes sr samples) 12 = [102, 109, 116, 32] := by
    rw [E]; rfl
  have hdata36 : ascii4 (writeWavPcm16MonoBytes sr samples) (12 + 8 + 16) =
      [100, 97, 116, 97] := by
    rw [E]; rfl
  have hchunk1 : readU32LE (writeWavPcm16MonoBytes sr samples) (12 + 4) = some 16 := by
    have h := readU32LE_of_bytes (writeWavPcm16MonoBytes sr samples) (12 + 4) 16 0 0 0
      (by rw [E]; rfl) (by rw [E]; rfl) (by rw [E]; rfl) (by rw [E]; rfl)
    simpa using h
  have hch : readU16LE (writeWavPcm16MonoBytes sr samples) (12 + 8 + 2) = some 1 := by
    have h := readU16LE_of_bytes (writeWavPcm16MonoBytes sr samples) (12 + 8 + 2) 1 0
      (by rw [E]; rfl) (by rw [E]; rfl)
    simpa using h
  have hsrr : readU32LE (writeWavPcm16MonoBytes sr samples) (12 + 8 + 4) = some sr := by
    have h := readU32LE_of_bytes (writeWavPcm16MonoBytes sr samples) (12 + 8 + 4)
      (sr % 256) (sr / 256 % 256) (sr / 65536 % 256) (sr / 16777216 % 256)
      (by rw [E]; rfl) (by rw [E]; rfl) (by rw [E]; rfl) (by rw [E]; rfl)
    rw [h]
    congr 1
    omega
  have hbits : readU16LE (writeWavPcm16MonoBytes sr samples) (12 + 8 + 14) = some 16 := by
    have h := readU16LE_of_bytes (writeWavPcm16MonoBytes sr samples) (12 + 8 + 14) 16 0
      (by rw [E]; rfl) (by rw [E]; rfl)
    simpa using h
  have hsize : readU32LE (writeWavPcm16MonoBytes sr samples) (12 + 8 + 16 + 4) =
      some (2 * samples.length) := by
    have h := readU32LE_of_bytes (writeWavPcm16MonoBytes sr samples) (12 + 8 + 16 + 4)
      (((samples.map int16LEBytes).flatten).length % 256)
      (((samples.map int16LEBytes).flatten).length / 256 % 256)
      (((samples.map int16LEBytes).flatten).length / 65536 % 256)
      (((samples.map int16LEBytes).flatten).length / 16777216 % 256)
      (by rw [E]; rfl) (by rw [E]; rfl) (by rw [E]; rfl) (by rw [E]; rfl)
    rw [hL] at h
    rw [h]
    congr 1
    omega
  have hstep1 : scanChunks (writeWavPcm16MonoBytes sr samples) 12 1 24000 16 =
      scanChunks (writeWavPcm16MonoBytes sr samples) (12 + 8 + 16) 1 sr 16 := by
    rw [scanChunks.eq_def]
    rw [dif_pos (by omega)]
    rw [hchunk1]
    dsimp only
    rw [if_pos hfmt12, hch, hsrr, hbits]
  have hstep2 : scanChunks (writeWavPcm16MonoBytes sr samples) (12 + 8 + 16) 1 sr 16 =
      .ok (some (44, 2 * samples.length), 1, sr, 16) := by
    rw [scanChunks.eq_def]
    rw [dif_pos (by omega)]
    rw [hsize]
    dsimp only
    rw [if_neg (by rw [hdata36]; decide), if_pos hdata36]
  rw [readWavPcm16Mono]
  rw [if_neg (by omega)]
  rw [if_neg (not_not_intro ⟨hm0, hm8⟩)]
  rw [hstep1.trans hstep2]
  dsimp only
  rw [if_neg (by norm_num), if_pos rfl]
  rw [show (writeWavPcm16MonoBytes sr samples).drop 44 =
    (samples.map int16LEBytes).flatten from by rw [E]; rfl]
  rw [← hL, List.take_length]
  rw [decode_encode samples hdom]

/-- C1: serializing a valid mono 16-bit buffer, parsing the bytes back, and
serializing the parse result is byte-identical to the first serialization
(indeed the parse returns the very same sample rate and samples). -/
theorem wav_serialize_parse_roundtrip (b : AudioBuffer)
    (hsr0 : 0 < b.sampleRate) (hsr : b.sampleRate < 4294967296)
    (hdom : ∀ v ∈ b.samples, -32768 ≤ v ∧ v ≤ 32767)
    (hn : 36 + 2 * b.samples.length < 4294967296) :
    ∃ r, readWavPcm16Mono (writeWavPcm16MonoBytes b.sampleRate b.samples) = .ok r ∧
      writeWavPcm16MonoBytes r.sampleRate r.samples =
        writeWavPcm16MonoBytes b.sampleRate b.samples :=
  ⟨⟨b.sampleRate, 1, 16, b.samples⟩,
    readWav_writeWav b.sampleRate b.samples hsr hn hdom, rfl⟩

/-- Witness for C1 on a small concrete buffer at 24000 Hz. -/
theorem wav_serialize_parse_roundtrip_witness :
    ∃ r, readWavPcm16Mono
        (writeWavPcm16MonoBytes (AudioBuffer.mk 24000 [0, 1000, -1000]).sampleRate
          (AudioBuffer.mk 24000 [0, 1000, -1000]).samples) = .ok r ∧
      writeWavPcm16MonoBytes r.sampleRate r.samples =
        writeWavPcm16MonoBytes (AudioBuffer.mk 24000 [0, 1000, -1000]).sampleRate
          (AudioBuffer.mk 24000 [0, 1000, -1000]).samples :=
  wav_serialize_parse_roundtrip ⟨24000, [0, 1000, -1000]⟩ (by norm_num) (by norm_num)
    (by decide) (by decide)
